import Mathlib

/-!
Verification of the Sports-Organizer matching and fingerprint-tracking
subsystem against its specification.

The Lean definitions below are shallow embeddings of the Python source:

* `ShowFingerprint`, `MetadataChangeResult`, `MetadataFingerprintStore.update`
  embed `src/sports_organizer/metadata.py` (lines 182-339).  Python `dict`s
  are embedded as association lists (`List (String × β)`) looked up with
  `List.lookup`; Python `set`s of strings as `List String` with membership.
* `CachedFileRecord` and `ProcessedFileCache.remove_by_metadata_changes`
  embed `src/playbook/cache.py` (lines 121-318).
* `compute_show_fingerprint` and its helpers embed
  `src/sports_organizer/metadata.py` (lines 104-137, 360-423); the SHA-1
  hash and the JSON serialisation are abstracted as a hash parameter and a
  concrete field-encoding function, since no claim depends on hash values.
* `_tokens_close` / `_token_similarity` (no-backend mode) embed
  `src/playbook/matcher.py` (lines 16-49), with `difflib.SequenceMatcher`
  modelled from its documented semantics (longest matching block, earliest
  in `a` then in `b`, no junk since `autojunk=False`).
* `_resolve_regex_tokens` / `_expand_placeholders` embed
  `src/sports_organizer/pattern_templates.py` (lines 11-49).
* `match_file_to_episode`'s pattern loop and `_build_sport_config`'s
  priority sort embed `src/playbook/matcher.py` (lines 412-613) and
  `src/playbook/config.py` (lines 213-215); the per-pattern regex search
  and season/episode resolution are abstracted as function parameters.
-/

namespace SportsOrganizer

/-- Embeds the `ShowFingerprint` dataclass (metadata.py lines 182-186):
`digest`, `season_hashes : Dict[str, str]`,
`episode_hashes : Dict[str, Dict[str, str]]`. -/
structure ShowFingerprint where
  digest : String
  season_hashes : List (String × String)
  episode_hashes : List (String × List (String × String))
deriving DecidableEq

/-- Embeds the `MetadataChangeResult` dataclass (metadata.py lines 210-215). -/
structure MetadataChangeResult where
  updated : Bool
  changed_seasons : List String
  changed_episodes : List (String × List String)
  invalidate_all : Bool
deriving DecidableEq

/-- Python `dict` equality on string-valued maps embedded as association
lists: same keys, same values (used for metadata.py line 276). -/
def strMapEq (a b : List (String × String)) : Bool :=
  (a.all fun p => b.lookup p.1 == some p.2) && (b.all fun p => a.lookup p.1 == some p.2)

/-- Python `dict` equality on `Dict[str, Dict[str, str]]`
(used for metadata.py line 277). -/
def epMapEq (a b : List (String × List (String × String))) : Bool :=
  (a.all fun p => match b.lookup p.1 with
    | some m => strMapEq p.2 m
    | none => false) &&
  (b.all fun p => match a.lookup p.1 with
    | some m => strMapEq p.2 m
    | none => false)

/-- The first diff loop of `update` (metadata.py lines 305-309) and the inner
episode comparison (lines 323-327): the keys of `old` whose hash is missing
from `new` or differs there. -/
def staleKeys (old new : List (String × String)) : List String :=
  (old.filter fun p => !(new.lookup p.1 == some p.2)).map Prod.fst

/-- The second diff loop of `update` (metadata.py lines 315-330), iterating
over the stored episode maps with the accumulated `changed_seasons` (`cs`)
and `changed_episodes` (`ce`); a stored season whose episode map has no
counterpart in the new fingerprint is flagged as a changed season. -/
def epDiffLoop (newEpisodes : List (String × List (String × String))) :
    List (String × List (String × String)) → List String → List (String × List String) →
    List String × List (String × List String)
  | [], cs, ce => (cs, ce)
  | (sk, prevMap) :: rest, cs, ce =>
    if cs.contains sk then
      epDiffLoop newEpisodes rest cs ce
    else
      match newEpisodes.lookup sk with
      | none => epDiffLoop newEpisodes rest (cs ++ [sk]) ce
      | some newMap =>
        let episodeChanges := staleKeys prevMap newMap
        if episodeChanges.isEmpty then epDiffLoop newEpisodes rest cs ce
        else epDiffLoop newEpisodes rest cs (ce ++ [(sk, episodeChanges)])

namespace MetadataFingerprintStore

/-- Embeds `MetadataFingerprintStore.update` (metadata.py lines 262-339) for
one sport id: takes the stored fingerprint for the key (`none` when absent)
and the new fingerprint, returns the `MetadataChangeResult` together with the
fingerprint stored for the key afterwards. -/
def update (existing : Option ShowFingerprint) (fp : ShowFingerprint) :
    MetadataChangeResult × ShowFingerprint :=
  match existing with
  | none => (⟨true, [], [], false⟩, fp)
  | some e =>
    if e.digest = fp.digest then
      (⟨false, [], [], false⟩,
        if strMapEq e.season_hashes fp.season_hashes &&
            epMapEq e.episode_hashes fp.episode_hashes then e else fp)
    else if (e.season_hashes.isEmpty && e.episode_hashes.isEmpty) ||
        (e.episode_hashes.isEmpty && (fp.episode_hashes.any fun p => !p.2.isEmpty)) then
      (⟨true, [], [], true⟩, fp)
    else
      let cs0 := staleKeys e.season_hashes fp.season_hashes
      let r := epDiffLoop fp.episode_hashes e.episode_hashes cs0 []
      (⟨true, r.1, r.2, false⟩, fp)

end MetadataFingerprintStore

/-- A persisted fingerprint entry as `MetadataFingerprintStore._load`
(metadata.py lines 244-257) finds it: either a legacy bare digest string or a
dict payload as read by `ShowFingerprint.from_dict` (lines 195-207): optional
digest, optional season map, and an episodes mapping whose non-dict values
(`none` below) are skipped. -/
inductive StoredEntry where
  | strVal (s : String)
  | dictVal (digest : Option String) (seasons : Option (List (String × String)))
      (episodes : Option (List (String × Option (List (String × String)))))

/-- Embeds the per-entry branch of `_load` (metadata.py lines 248-252): a bare
string becomes a fingerprint with empty season/episode maps; a dict goes
through `ShowFingerprint.from_dict`. -/
def loadStoredEntry : StoredEntry → ShowFingerprint
  | .strVal s => ⟨s, [], []⟩
  | .dictVal d se ep =>
      ⟨d.getD "", se.getD [],
        (ep.getD []).filterMap fun p => p.2.map fun m => (p.1, m)⟩

/-- Embeds the `CachedFileRecord` dataclass (cache.py lines 121-129). -/
structure CachedFileRecord where
  mtime_ns : Int
  size : Int
  checksum : Option String
  destination : Option String
  sport_id : Option String
  season_key : Option String
  episode_key : Option String
deriving DecidableEq

/-- The per-record removal test of `remove_by_metadata_changes`
(cache.py lines 282-313). -/
def shouldRemove (changes : List (String × MetadataChangeResult))
    (r : CachedFileRecord) : Bool :=
  match r.sport_id with
  | none => true
  | some sid =>
    match changes.lookup sid with
    | none => false
    | some change =>
      if change.invalidate_all then true
      else
        match r.season_key with
        | none => !change.changed_seasons.isEmpty || !change.changed_episodes.isEmpty
        | some sk =>
          if change.changed_seasons.contains sk then true
          else
            match change.changed_episodes.lookup sk with
            | none => false
            | some eps =>
              !eps.isEmpty &&
                (match r.episode_key with
                 | none => true
                 | some ek => eps.contains ek)

/-- The iteration of `remove_by_metadata_changes` over
`list(self._records.items())` (cache.py lines 282-313): first component the
removed records (in iteration order), second the surviving ones. -/
def removalLoop (changes : List (String × MetadataChangeResult)) :
    List (String × CachedFileRecord) →
    List (String × CachedFileRecord) × List (String × CachedFileRecord)
  | [] => ([], [])
  | (k, r) :: rest =>
    let t := removalLoop changes rest
    if shouldRemove changes r then ((k, r) :: t.1, t.2) else (t.1, (k, r) :: t.2)

namespace ProcessedFileCache

/-- Embeds `ProcessedFileCache.remove_by_metadata_changes`
(cache.py lines 273-318): given the changes mapping and the cache's records,
returns the removed records, the remaining records, and whether the call
marked the cache dirty. -/
def remove_by_metadata_changes (changes : List (String × MetadataChangeResult))
    (records : List (String × CachedFileRecord)) :
    List (String × CachedFileRecord) × List (String × CachedFileRecord) × Bool :=
  if changes.isEmpty then ([], records, false)
  else
    let t := removalLoop changes records
    (t.1, t.2, !t.1.isEmpty)

end ProcessedFileCache

/-- The removal condition as the specification words it (spec §4.4 and claim
C5), written independently of `shouldRemove` so the code's behaviour can be
compared against it: a record is implicated when it has no sport id; or its
sport's change result says invalidate-all; or it has no season key while the
sport has any changed seasons or episodes; or its season is a changed season;
or its season's changed-episode set is non-empty and the record's episode key
is unset or in that set. -/
def removalClaimCondition (changes : List (String × MetadataChangeResult))
    (r : CachedFileRecord) : Prop :=
  r.sport_id = none ∨
  ∃ sid change, r.sport_id = some sid ∧ changes.lookup sid = some change ∧
    (change.invalidate_all = true ∨
     (r.season_key = none ∧
       (change.changed_seasons ≠ [] ∨ change.changed_episodes ≠ [])) ∨
     (∃ sk, r.season_key = some sk ∧ sk ∈ change.changed_seasons) ∨
     (∃ sk eps, r.season_key = some sk ∧ change.changed_episodes.lookup sk = some eps ∧
       eps ≠ [] ∧ (r.episode_key = none ∨ ∃ ek, r.episode_key = some ek ∧ ek ∈ eps)))

/-! ### Show / Season / Episode data model (models.py lines 12-42)

Raw `Dict[str, Any]` metadata mappings are embedded as string-valued
association lists; no claim depends on non-string metadata values. -/

/-- Embeds the `Episode` dataclass (models.py lines 12-20); the optional
`originally_available` date is embedded as its ISO string. -/
structure Episode where
  title : String
  summary : Option String
  originally_available : Option String
  index : Int
  metadata : List (String × String)
  display_number : Option Int
  aliases : List String
deriving DecidableEq

/-- Embeds the `Season` dataclass (models.py lines 23-33). -/
structure Season where
  key : String
  title : String
  summary : Option String
  index : Int
  episodes : List Episode
  sort_title : Option String
  display_number : Option Int
  round_number : Option Int
  metadata : List (String × String)
deriving DecidableEq

/-- Embeds the `Show` dataclass (models.py lines 36-41). -/
structure Show where
  key : String
  title : String
  summary : Option String
  seasons : List Season
  metadata : List (String × String)
deriving DecidableEq

/-- Embeds the `MetadataConfig` dataclass (config.py lines 47-53);
`season_overrides : Dict[str, Dict[str, Any]]` as a nested association
list. -/
structure MetadataConfig where
  url : String
  show_key : Option String
  ttl_hours : Int
  headers : List (String × String)
  season_overrides : List (String × List (String × String))
deriving DecidableEq

/-- `metadata.get(field)` with Python truthiness: an empty string is falsy
(used by `_episode_identifier`, metadata.py lines 115-118). -/
def lookupTruthy (m : List (String × String)) (k : String) : Option String :=
  match m.lookup k with
  | some v => if v = "" then none else some v
  | none => none

/-- Embeds `_season_identifier` (metadata.py lines 104-110). -/
def seasonIdentifier (se : Season) : String :=
  if se.key ≠ "" then se.key
  else
    match se.display_number with
    | some n => "display:" ++ toString n
    | none => "index:" ++ toString se.index

/-- Embeds `_episode_identifier` (metadata.py lines 113-123). -/
def episodeIdentifier (ep : Episode) : String :=
  match lookupTruthy ep.metadata "id" with
  | some v => "id:" ++ v
  | none =>
    match lookupTruthy ep.metadata "guid" with
    | some v => "guid:" ++ v
    | none =>
      match lookupTruthy ep.metadata "episode_id" with
      | some v => "episode_id:" ++ v
      | none =>
        match lookupTruthy ep.metadata "uuid" with
        | some v => "uuid:" ++ v
        | none =>
          match ep.display_number with
          | some n => "display:" ++ toString n
          | none =>
            if ep.title ≠ "" then "title:" ++ ep.title
            else "index:" ++ toString ep.index

/-- Embeds `_clean_season_metadata` (metadata.py lines 126-131): drop the
`episodes` key from a season's raw metadata before hashing. -/
def cleanSeasonMetadata (m : List (String × String)) : List (String × String) :=
  m.filter fun p => p.1 ≠ "episodes"

/-- Key-sorted rendering order of a JSON object, as `json.dumps`
with `sort_keys=True` uses (metadata.py lines 368-374). -/
def sortOnKey {β : Type} (m : List (String × β)) : List (String × β) :=
  List.insertionSort (fun a b => a.1 ≤ b.1) m

/-- Encoding of an optional string field as `json.dumps` distinguishes
`None` from a string. -/
def encOptStr : Option String → String
  | none => "null"
  | some s => "s:" ++ s

/-- Encoding of an optional integer field. -/
def encOptInt : Option Int → String
  | none => "null"
  | some n => "i:" ++ toString n

/-- Encoding of a JSON string list. -/
def encStrList (l : List String) : String :=
  "[" ++ String.intercalate "," l ++ "]"

/-- Encoding of a string-valued mapping with sorted keys. -/
def encMeta (m : List (String × String)) : String :=
  "(" ++ String.intercalate "," ((sortOnKey m).map fun p => p.1 ++ "=" ++ p.2) ++ ")"

/-- Encoding of a nested mapping with sorted keys (season overrides). -/
def encNestedMeta (m : List (String × List (String × String))) : String :=
  "(" ++ String.intercalate "," ((sortOnKey m).map fun p => p.1 ++ "=" ++ encMeta p.2) ++ ")"

/-- The serialised `fingerprint_payload` of `compute_show_fingerprint`
(metadata.py lines 363-374), keys in `sort_keys=True` order:
metadata, season_overrides, show_key. -/
def encodeShowPayload (sh : Show) (cfg : MetadataConfig) : String :=
  "metadata=" ++ encMeta sh.metadata ++
  ";season_overrides=" ++ encNestedMeta cfg.season_overrides ++
  ";show_key=" ++ encOptStr cfg.show_key

/-- The serialised `season_payload` (metadata.py lines 381-397), keys in
sorted order: display_number, index, key, metadata, round_number,
sort_title, summary, title. -/
def encodeSeasonPayload (seasonKey : String) (se : Season) : String :=
  "display_number=" ++ encOptInt se.display_number ++
  ";index=" ++ toString se.index ++
  ";key=" ++ seasonKey ++
  ";metadata=" ++ encMeta (cleanSeasonMetadata se.metadata) ++
  ";round_number=" ++ encOptInt se.round_number ++
  ";sort_title=" ++ encOptStr se.sort_title ++
  ";summary=" ++ encOptStr se.summary ++
  ";title=" ++ se.title

/-- The serialised `episode_payload` (metadata.py lines 401-418), keys in
sorted order: aliases, display_number, index, metadata,
originally_available, summary, title. -/
def encodeEpisodePayload (ep : Episode) : String :=
  "aliases=" ++ encStrList ep.aliases ++
  ";display_number=" ++ encOptInt ep.display_number ++
  ";index=" ++ toString ep.index ++
  ";metadata=" ++ encMeta ep.metadata ++
  ";originally_available=" ++ encOptStr ep.originally_available ++
  ";summary=" ++ encOptStr ep.summary ++
  ";title=" ++ ep.title

/-- Embeds `compute_show_fingerprint` (metadata.py lines 360-423).  The SHA-1
hash of a serialised payload is abstracted as the parameter `hashFn`: every
theorem below holds for any hash function, in particular for SHA-1. -/
def compute_show_fingerprint (hashFn : String → String) (sh : Show)
    (cfg : MetadataConfig) : ShowFingerprint :=
  ⟨hashFn (encodeShowPayload sh cfg),
    sh.seasons.map fun se =>
      (seasonIdentifier se, hashFn (encodeSeasonPayload (seasonIdentifier se) se)),
    sh.seasons.map fun se =>
      (seasonIdentifier se,
        se.episodes.map fun ep => (episodeIdentifier ep, hashFn (encodeEpisodePayload ep)))⟩

/-- Functional update of the element at one position of a list. -/
def modifyIdx {α : Type} (f : α → α) : Nat → List α → List α
  | _, [] => []
  | 0, a :: as => f a :: as
  | n + 1, a :: as => a :: modifyIdx f n as

/-- Two shows differing only in one episode's summary: replace the summary of
episode `j` of season `i`. -/
def setEpisodeSummary (sh : Show) (i j : Nat) (newSummary : Option String) : Show :=
  { sh with
    seasons := modifyIdx (fun se =>
      { se with
        episodes := modifyIdx (fun ep => { ep with summary := newSummary }) j se.episodes })
      i sh.seasons }

/-! ### Fuzzy matching fallback (matcher.py lines 16-49)

`difflib.SequenceMatcher(None, a, b, autojunk=False).ratio()` is modelled
from its documented semantics: repeatedly take the longest matching block
(among maximal blocks the one starting earliest in `a`, then earliest in
`b`; no junk since `autojunk=False`), recurse on both sides, and return
`2 * M / (len(a) + len(b))` where `M` is the total matched length. -/

/-- Length of the longest common initial run of two character lists. -/
def commonRun : List Char → List Char → Nat
  | a :: as, b :: bs => if a = b then commonRun as bs + 1 else 0
  | _, _ => 0

/-- Length of the matching run of `a` and `b` starting at `(i, j)`, capped at
the window ends `ihi`, `jhi`. -/
def runLen (a b : List Char) (i j ihi jhi : Nat) : Nat :=
  commonRun ((a.drop i).take (ihi - i)) ((b.drop j).take (jhi - j))

/-- `SequenceMatcher.find_longest_match` on the windows `a[alo:ahi]`,
`b[blo:bhi]`: the longest matching block `(i, j, k)`, ties resolved to the
smallest `i`, then the smallest `j`; `(alo, blo, 0)` when nothing matches. -/
def bestMatchIn (a b : List Char) (alo ahi blo bhi : Nat) : Nat × Nat × Nat :=
  (List.range (ahi - alo)).foldl (fun best di =>
    (List.range (bhi - blo)).foldl (fun best dj =>
      let k := runLen a b (alo + di) (blo + dj) ahi bhi
      if best.2.2 < k then (alo + di, blo + dj, k) else best) best)
    (alo, blo, 0)

/-- Total size of `SequenceMatcher.get_matching_blocks` on a window,
with explicit recursion fuel (the window shrinks at every level, so
`a.length + b.length + 1` fuel always suffices). -/
def totalMatches (a b : List Char) : Nat → Nat × Nat × Nat × Nat → Nat
  | 0, _ => 0
  | fuel + 1, (alo, ahi, blo, bhi) =>
    let m := bestMatchIn a b alo ahi blo bhi
    if m.2.2 = 0 then 0
    else
      totalMatches a b fuel (alo, m.1, blo, m.2.1) + m.2.2 +
        totalMatches a b fuel (m.1 + m.2.2, ahi, m.2.1 + m.2.2, bhi)

/-- Total matched length of `SequenceMatcher(None, a, b, autojunk=False)`. -/
def seqMatchTotal (a b : List Char) : Nat :=
  totalMatches a b (a.length + b.length + 1) (0, a.length, 0, b.length)

/-- Embeds `_token_similarity` (matcher.py lines 16-22) in the mode where no
fuzzy-distance backend is importable (`DamerauLevenshtein` and `Levenshtein`
are `None`): `difflib.SequenceMatcher(...).ratio()`, as an exact rational. -/
def token_similarity_fallback (candidate target : String) : Rat :=
  if candidate.length + target.length = 0 then 1
  else
    (2 * seqMatchTotal candidate.toList target.toList : Rat) /
      ((candidate.length + target.length : Nat) : Rat)

/-- The equal-length adjacent-transposition test of `_tokens_close`
(matcher.py lines 33-38): exactly two differing positions whose characters
are swapped. -/
def transpositionAccept (candidate target : String) : Bool :=
  if candidate.length = target.length then
    match (candidate.toList.zip target.toList).filter (fun p => p.1 != p.2) with
    | [(c1, t1), (c2, t2)] => c1 == t2 && c2 == t1
    | _ => false
  else false

/-- Embeds `_tokens_close` (matcher.py lines 25-49) in the mode where no
fuzzy-distance backend is importable: the backend branch (lines 40-47) is
unreachable and the final fallback (line 49) compares the generic
sequence-similarity ratio with 0.9. -/
def tokens_close_fallback (candidate target : String) : Bool :=
  if candidate.length < 4 || target.length < 4 then false
  else if 1 < ((candidate.length : Int) - (target.length : Int)).natAbs then false
  else if candidate.toList.head? != target.toList.head? then false
  else if transpositionAccept candidate target then true
  else decide ((9 : Rat) / 10 ≤ token_similarity_fallback candidate target)

/-! ### Token expander (pattern_templates.py lines 11-49)

`PLACEHOLDER_RE = (?<!\?P)<([A-Za-z0-9_]+)>` is embedded as a left-to-right
scanner over the characters that tracks the two previously consumed
characters for the `(?<!\?P)` lookbehind.  The recursion of
`_resolve_regex_tokens.resolve` is embedded with explicit fuel; every
recursive call consumes one unit, so any fuel larger than the total work
gives the Python behaviour, and fuel exhaustion is a distinguished error
no theorem ever treats as Python behaviour. -/

/-- The errors `_resolve_regex_tokens` and `_expand_placeholders` raise, plus
the fuel-exhaustion artifact of the embedding. -/
inductive TokenError where
  | unknownToken (name : String)
  | unknownInPattern (name : String) (patternText : String)
  | circular (chain : List String)
  | outOfFuel
deriving DecidableEq

/-- A character of a `<name>` placeholder: `[A-Za-z0-9_]`. -/
def isTokenChar (c : Char) : Bool :=
  c.isAlphanum || c == '_'

/-- After an opening `<`, read a nonempty token name followed by `>`;
returns the name's characters and the remaining input. -/
def takeTokenName (cs : List Char) : Option (List Char × List Char) :=
  let name := cs.takeWhile isTokenChar
  if name.isEmpty then none
  else
    match cs.drop name.length with
    | '>' :: rest => some (name, rest)
    | _ => none

/-- `PLACEHOLDER_RE.sub(replace, text)` for a stateless replacement function:
scan left to right, replacing every `<name>` not preceded by `?P`.
`p2`/`p1` are the two characters consumed just before the current position. -/
def subPlaceholders (repl : String → Except TokenError String) :
    Nat → Option Char → Option Char → List Char → Except TokenError (List Char)
  | 0, _, _, _ => .error .outOfFuel
  | _ + 1, _, _, [] => .ok []
  | fuel + 1, p2, p1, c :: rest =>
    if c = '<' && !(p2 == some '?' && p1 == some 'P') then
      match takeTokenName rest with
      | some (name, rest') => do
        let v ← repl (String.mk name)
        let tail ← subPlaceholders repl fuel name.getLast? (some '>') rest'
        .ok (v.toList ++ tail)
      | none => do
        let tail ← subPlaceholders repl fuel p1 (some c) rest
        .ok (c :: tail)
    else do
      let tail ← subPlaceholders repl fuel p1 (some c) rest
      .ok (c :: tail)

/-- Embeds `_expand_placeholders` (pattern_templates.py lines 42-49): replace
every placeholder of a pattern body from an already-resolved token table; an
unknown reference raises an error naming the token and the full pattern
text. -/
def expandPlaceholders (text : String) (tokens : List (String × String)) :
    Except TokenError String :=
  (subPlaceholders
    (fun name =>
      match tokens.lookup name with
      | some v => .ok v
      | none => .error (.unknownInPattern name text))
    (text.length + 1) none none text.toList).map fun cs => String.mk cs

mutual

/-- Embeds `_resolve_regex_tokens.resolve` (pattern_templates.py lines
18-34): memoised per name in `memo`, unknown names and names already on the
resolution `stack` fail fast. -/
def resolveName (raw : List (String × String)) :
    Nat → List (String × String) → List String → String →
    Except TokenError (String × List (String × String))
  | 0, _, _, _ => .error .outOfFuel
  | fuel + 1, memo, stack, name =>
    match memo.lookup name with
    | some v => .ok (v, memo)
    | none =>
      match raw.lookup name with
      | none => .error (.unknownToken name)
      | some pat =>
        if stack.contains name then .error (.circular (stack ++ [name]))
        else do
          let r ← resolveScan raw fuel (memo) (stack ++ [name]) none none pat.toList
          .ok (String.mk r.1, r.2 ++ [(name, String.mk r.1)])

/-- The `PLACEHOLDER_RE.sub(replace, pattern)` inside
`_resolve_regex_tokens.resolve`: like `subPlaceholders` but each replacement
resolves the referenced name recursively, threading the memo table. -/
def resolveScan (raw : List (String × String)) :
    Nat → List (String × String) → List String → Option Char → Option Char → List Char →
    Except TokenError (List Char × List (String × String))
  | 0, _, _, _, _, _ => .error .outOfFuel
  | _ + 1, memo, _, _, _, [] => .ok ([], memo)
  | fuel + 1, memo, stack, p2, p1, c :: rest =>
    if c = '<' && !(p2 == some '?' && p1 == some 'P') then
      match takeTokenName rest with
      | some (name, rest') => do
        let r ← resolveName raw fuel memo stack (String.mk name)
        let t ← resolveScan raw fuel r.2 stack name.getLast? (some '>') rest'
        .ok (r.1.toList ++ t.1, t.2)
      | none => do
        let t ← resolveScan raw fuel memo stack p1 (some c) rest
        .ok (c :: t.1, t.2)
    else do
      let t ← resolveScan raw fuel memo stack p1 (some c) rest
      .ok (c :: t.1, t.2)

end

/-- Ample fuel for `resolveName` on a concrete token table. -/
def tokenFuel (raw : List (String × String)) : Nat :=
  (raw.foldl (fun acc p => acc + p.1.length + p.2.length) 0 + raw.length + 2) *
    (raw.length + 2)

/-- The toplevel loop of `_resolve_regex_tokens` (pattern_templates.py lines
36-38): resolve every token name in table order with a fresh stack, threading
the memo table. -/
def resolveAll (raw : List (String × String)) :
    List String → List (String × String) → Except TokenError (List (String × String))
  | [], memo => .ok memo
  | n :: rest, memo => do
    let r ← resolveName raw (tokenFuel raw) memo [] n
    resolveAll raw rest r.2

/-- Embeds `_resolve_regex_tokens` (pattern_templates.py lines 15-39). -/
def resolveRegexTokens (raw : List (String × String)) :
    Except TokenError (List (String × String)) :=
  resolveAll raw (raw.map Prod.fst) []

/-! ### Pattern matching loop (matcher.py lines 412-613, config.py 213-215)

The per-pattern regex search and the season/episode resolution
(`_select_season`, `_select_episode`) are abstracted as function parameters:
the claims below are about the loop's priority ordering and first-success
semantics, which hold for every resolution behaviour. -/

/-- Embeds the `SeasonSelector` dataclass (config.py lines 15-21). -/
structure SeasonSelector where
  mode : String
  group : Option String
  offset : Int
  mapping : List (String × Int)
  aliases : List (String × String)
deriving DecidableEq

/-- Embeds the `EpisodeSelector` dataclass (config.py lines 24-27). -/
structure EpisodeSelector where
  group : String
  allow_fallback_to_title : Bool
deriving DecidableEq

/-- Embeds the `PatternConfig` dataclass (config.py lines 30-44). -/
structure PatternConfig where
  regex : String
  description : Option String
  season_selector : SeasonSelector
  episode_selector : EpisodeSelector
  session_aliases : List (String × List String)
  metadata_filters : List (String × String)
  filename_template : Option String
  season_dir_template : Option String
  destination_root_template : Option String
  priority : Int
deriving DecidableEq

/-- The result dict of `match_file_to_episode` (matcher.py lines 558-563):
`{"season": ..., "episode": ..., "pattern": ..., "groups": ...}`. -/
structure EpisodeMatch where
  season : Season
  episode : Episode
  pattern : PatternConfig
  groups : List (String × String)
deriving DecidableEq

/-- One iteration of the pattern loop (matcher.py lines 450-590): regex
search, season resolution, episode resolution; `none` means this pattern is
skipped (`continue`) and the loop moves to the next pattern. -/
def tryPattern (regexSearch : PatternConfig → String → Option (List (String × String)))
    (selectSeason : Show → SeasonSelector → List (String × String) → Option Season)
    (selectEpisode : PatternConfig → Season → List (String × String) → Option Episode)
    (filename : String) (sh : Show) (p : PatternConfig) : Option EpisodeMatch :=
  match regexSearch p filename with
  | none => none
  | some groups =>
    match selectSeason sh p.season_selector groups with
    | none => none
    | some season =>
      match selectEpisode p season groups with
      | none => none
      | some episode => some ⟨season, episode, p, groups⟩

/-- Embeds the pattern loop of `match_file_to_episode` (matcher.py lines
450-613): the first pattern, in list order, whose regex matches and whose
season and episode both resolve wins and is returned immediately; if none
does, the result is `None`. -/
def match_file_to_episode
    (regexSearch : PatternConfig → String → Option (List (String × String)))
    (selectSeason : Show → SeasonSelector → List (String × String) → Option Season)
    (selectEpisode : PatternConfig → Season → List (String × String) → Option Episode)
    (filename : String) (sh : Show) : List PatternConfig → Option EpisodeMatch
  | [] => none
  | p :: rest =>
    match tryPattern regexSearch selectSeason selectEpisode filename sh p with
    | some r => some r
    | none => match_file_to_episode regexSearch selectSeason selectEpisode filename sh rest

/-- Embeds the pattern sort of `_build_sport_config` (config.py lines
213-215): `sorted(..., key=lambda cfg: cfg.priority)`, a stable sort by
ascending priority. -/
def sortPatternsByPriority (l : List PatternConfig) : List PatternConfig :=
  List.insertionSort (fun a b => a.priority ≤ b.priority) l

/-- The value `changed_episodes` associates with a season key `s` after the
episode diff loop, stated as a function of the loop's inputs: the accumulated
`ce` wins if it already binds `s`; otherwise `s` must be a stored episode
season not already flagged changed whose new episode map exists and has a
non-empty set of stale episode keys. -/
def epDiffCeSpec (newEp : List (String × List (String × String)))
    (cs : List String) (l : List (String × List (String × String)))
    (ce : List (String × List String)) (s : String) : Option (List String) :=
  match ce.lookup s with
  | some v => some v
  | none =>
    match l.lookup s with
    | none => none
    | some prevMap =>
      if s ∈ cs then none
      else
        match newEp.lookup s with
        | none => none
        | some newMap =>
          if (staleKeys prevMap newMap).isEmpty then none
          else some (staleKeys prevMap newMap)

/-! ### Concrete instances used by the claims -/

/-- The spec's invalidation-scoping example: a stored fingerprint with two
seasons. -/
def exampleStored : ShowFingerprint :=
  ⟨"digest-old", [("01", "s01"), ("02", "s02")],
    [("01", [("ep1", "h1"), ("ep2", "h2")]), ("02", [("ep4", "h4"), ("ep5", "h5")])]⟩

/-- The spec's invalidation-scoping example: a new fingerprint differing only
in season "02" episode "ep5". -/
def exampleNew : ShowFingerprint :=
  ⟨"digest-new", [("01", "s01"), ("02", "s02")],
    [("01", [("ep1", "h1"), ("ep2", "h2")]), ("02", [("ep4", "h4"), ("ep5", "h5x")])]⟩

/-- A stored fingerprint, loadable from the persisted JSON format, whose
episode-hash map has a season key (`"orphan"`) absent from its season-hash
map. -/
def orphanStored : ShowFingerprint :=
  ⟨"d1", [("01", "a")], [("01", [("e1", "h")]), ("orphan", [("e2", "h2")])]⟩

/-- A new fingerprint with a different digest and no `"orphan"` season. -/
def orphanNew : ShowFingerprint :=
  ⟨"d2", [("01", "a")], [("01", [("e1", "h")])]⟩

/-- A concrete episode for the fingerprint-locality instance. -/
def episodeEx : Episode :=
  ⟨"Qualifying", some "old summary", none, 1, [], none, ["Quali"]⟩

/-- A concrete season holding `episodeEx`. -/
def seasonEx : Season :=
  ⟨"01", "Season 1", none, 1, [episodeEx], none, some 1, some 1, []⟩

/-- A concrete show holding `seasonEx`. -/
def showEx : Show :=
  ⟨"f1", "Formula 1", none, [seasonEx], [("source", "remote")]⟩

/-- A concrete metadata configuration. -/
def cfgEx : MetadataConfig :=
  ⟨"https://example.test/metadata.yml", some "f1", 12, [], []⟩

/-! ## Theorems -/

/-- Whatever branch `update` takes, the fingerprint stored afterwards has the
new fingerprint's digest. -/
theorem update_stored_digest (e fp : ShowFingerprint) :
    ((MetadataFingerprintStore.update (some e) fp).2).digest = fp.digest := by
  simp only [MetadataFingerprintStore.update]
  by_cases h : e.digest = fp.digest
  · simp only [if_pos h]
    split <;> simp [h]
  · simp only [if_neg h]
    split <;> rfl

/-- C10: with an empty changes mapping, `remove_by_metadata_changes` removes
nothing, returns an empty mapping, leaves every record (including legacy
`sport_id=None` ones) in place, and does not mark the cache dirty. -/
theorem remove_by_metadata_changes_empty (records : List (String × CachedFileRecord)) :
    ProcessedFileCache.remove_by_metadata_changes [] records = ([], records, false) := rfl

/-- C4: when the stored digest equals the new fingerprint's digest, `update`
returns `updated=false`, `invalidate_all=false` and empty change sets; if the
hash shape differs the richer new fingerprint still replaces the stored
record; and a second `update` with the same fingerprint directly after any
update returns `updated=false`. -/
theorem update_digest_unchanged (e fp : ShowFingerprint) (h : e.digest = fp.digest) :
    (MetadataFingerprintStore.update (some e) fp).1 = ⟨false, [], [], false⟩ ∧
    ((strMapEq e.season_hashes fp.season_hashes &&
        epMapEq e.episode_hashes fp.episode_hashes) = false →
      (MetadataFingerprintStore.update (some e) fp).2 = fp) ∧
    (∀ prior : ShowFingerprint,
      (MetadataFingerprintStore.update
        (some (MetadataFingerprintStore.update (some prior) fp).2) fp).1.updated = false) := by
  refine ⟨?_, ?_, ?_⟩
  · simp [MetadataFingerprintStore.update, h]
  · intro hne
    simp [MetadataFingerprintStore.update, h, hne]
  · intro prior
    have hd := update_stored_digest prior fp
    generalize hst : (MetadataFingerprintStore.update (some prior) fp).2 = st at hd ⊢
    simp [MetadataFingerprintStore.update, hd]

/-- C4 witness: the theorem applied to a stored legacy record and a new
fingerprint with the same digest but a richer hash shape. -/
theorem update_digest_unchanged_witness :
    (MetadataFingerprintStore.update (some ⟨"d", [], []⟩)
      ⟨"d", [("01", "x")], [("01", [("e1", "h")])]⟩).2 =
      ⟨"d", [("01", "x")], [("01", [("e1", "h")])]⟩ :=
  (update_digest_unchanged ⟨"d", [], []⟩ ⟨"d", [("01", "x")], [("01", [("e1", "h")])]⟩
    rfl).2.1 rfl

/-- C3: with a stored fingerprint present and a digest change, `update`
returns `updated=true`, `invalidate_all=true`, empty change sets and replaces
the stored record with the new fingerprint exactly when the stored record
carries no season- and no episode-level hashes, or no episode-level hashes
while the new fingerprint has some; and a persisted bare digest string loads
as a fingerprint with empty hash maps. -/
theorem update_invalidate_all_characterisation (e fp : ShowFingerprint)
    (h : e.digest ≠ fp.digest) :
    (((MetadataFingerprintStore.update (some e) fp).1 = ⟨true, [], [], true⟩ ∧
        (MetadataFingerprintStore.update (some e) fp).2 = fp) ↔
      ((e.season_hashes = [] ∧ e.episode_hashes = []) ∨
        (e.episode_hashes = [] ∧ (fp.episode_hashes.any fun p => !p.2.isEmpty) = true))) ∧
    (∀ s : String, loadStoredEntry (.strVal s) = ⟨s, [], []⟩) := by
  constructor
  · simp only [MetadataFingerprintStore.update, if_neg h]
    split
    case isTrue hc =>
      simp only [Bool.or_eq_true, Bool.and_eq_true, List.isEmpty_iff] at hc
      simpa using hc
    case isFalse hc =>
      simp only [Bool.or_eq_true, Bool.and_eq_true, List.isEmpty_iff] at hc
      constructor
      · intro hcontra
        exact absurd (congrArg MetadataChangeResult.invalidate_all hcontra.1) (by simp)
      · intro hrhs
        exact absurd hrhs hc
  · intro s
    rfl

/-- C3 witness: the theorem applied to a stored legacy bare-digest record and
a new fingerprint with a different digest. -/
theorem update_invalidate_all_witness :
    (MetadataFingerprintStore.update (some (loadStoredEntry (.strVal "old")))
      ⟨"new", [("01", "h")], [("01", [("e1", "x")])]⟩).1 = ⟨true, [], [], true⟩ :=
  ((update_invalidate_all_characterisation (loadStoredEntry (.strVal "old"))
    ⟨"new", [("01", "h")], [("01", [("e1", "x")])]⟩ (by decide)).1.mpr
    (Or.inl ⟨rfl, rfl⟩)).1

/-- The removal test of the code agrees with the removal condition as the
specification words it. -/
theorem shouldRemove_eq_true_iff (changes : List (String × MetadataChangeResult))
    (r : CachedFileRecord) :
    shouldRemove changes r = true ↔ removalClaimCondition changes r := by
  unfold shouldRemove removalClaimCondition
  rcases hs : r.sport_id with _ | sid <;> simp only [hs]
  · simp
  · rcases hc : changes.lookup sid with _ | change <;> simp only [hc]
    · simp [hc]
    · by_cases hi : change.invalidate_all = true
      · simp [hc, hi]
      · rcases hk : r.season_key with _ | sk <;> simp only [hk]
        · simp [hc, hi, List.isEmpty_iff]
        · by_cases hm : change.changed_seasons.contains sk = true
          · have hm' : sk ∈ change.changed_seasons := List.elem_iff.mp hm
            simp [if_pos hm, hc, hm']
          · have hm' : sk ∉ change.changed_seasons := fun hmem => hm (List.elem_iff.mpr hmem)
            simp only [if_neg hm]
            rcases he : change.changed_episodes.lookup sk with _ | eps <;> simp only [he]
            · simp [hc, hi, hm', he]
            · rcases hek : r.episode_key with _ | ek <;>
                simp [hc, hi, hm', he, hek, List.isEmpty_iff, List.elem_iff]

/-- Membership in the removed list of the removal loop. -/
theorem removalLoop_mem_removed (changes : List (String × MetadataChangeResult))
    (records : List (String × CachedFileRecord)) (k : String) (r : CachedFileRecord) :
    (k, r) ∈ (removalLoop changes records).1 ↔
      (k, r) ∈ records ∧ shouldRemove changes r = true := by
  induction records with
  | nil => simp [removalLoop]
  | cons p rest ih =>
    obtain ⟨k', r'⟩ := p
    by_cases hr : shouldRemove changes r' = true
    · simp only [removalLoop, if_pos hr, List.mem_cons, Prod.mk.injEq, ih]
      constructor
      · rintro (⟨rfl, rfl⟩ | ⟨hmem, hsr⟩)
        · exact ⟨Or.inl ⟨rfl, rfl⟩, hr⟩
        · exact ⟨Or.inr hmem, hsr⟩
      · rintro ⟨⟨rfl, rfl⟩ | hmem, hsr⟩
        · exact Or.inl ⟨rfl, rfl⟩
        · exact Or.inr ⟨hmem, hsr⟩
    · simp only [removalLoop, if_neg hr, List.mem_cons, Prod.mk.injEq, ih]
      constructor
      · rintro ⟨hmem, hsr⟩
        exact ⟨Or.inr hmem, hsr⟩
      · rintro ⟨⟨rfl, rfl⟩ | hmem, hsr⟩
        · exact absurd hsr hr
        · exact ⟨hmem, hsr⟩

/-- Membership in the surviving list of the removal loop. -/
theorem removalLoop_mem_kept (changes : List (String × MetadataChangeResult))
    (records : List (String × CachedFileRecord)) (k : String) (r : CachedFileRecord) :
    (k, r) ∈ (removalLoop changes records).2 ↔
      (k, r) ∈ records ∧ ¬ shouldRemove changes r = true := by
  induction records with
  | nil => simp [removalLoop]
  | cons p rest ih =>
    obtain ⟨k', r'⟩ := p
    by_cases hr : shouldRemove changes r' = true
    · simp only [removalLoop, if_pos hr, List.mem_cons, Prod.mk.injEq, ih]
      constructor
      · rintro ⟨hmem, hsr⟩
        exact ⟨Or.inr hmem, hsr⟩
      · rintro ⟨⟨rfl, rfl⟩ | hmem, hsr⟩
        · exact absurd hr hsr
        · exact ⟨hmem, hsr⟩
    · simp only [removalLoop, if_neg hr, List.mem_cons, Prod.mk.injEq, ih]
      constructor
      · rintro (⟨rfl, rfl⟩ | ⟨hmem, hsr⟩)
        · exact ⟨Or.inl ⟨rfl, rfl⟩, hr⟩
        · exact ⟨Or.inr hmem, hsr⟩
      · rintro ⟨⟨rfl, rfl⟩ | hmem, hsr⟩
        · exact Or.inl ⟨rfl, rfl⟩
        · exact Or.inr ⟨hmem, hsr⟩

/-- C5: with a non-empty changes mapping, `remove_by_metadata_changes`
removes and returns exactly the records implicated by the specification's
removal condition, and every other record — including records whose sport id
is absent from the mapping — survives. -/
theorem remove_by_metadata_changes_exact (changes : List (String × MetadataChangeResult))
    (records : List (String × CachedFileRecord)) (h : changes ≠ []) :
    (∀ k r, (k, r) ∈ (ProcessedFileCache.remove_by_metadata_changes changes records).1 ↔
      (k, r) ∈ records ∧ removalClaimCondition changes r) ∧
    (∀ k r, (k, r) ∈ (ProcessedFileCache.remove_by_metadata_changes changes records).2.1 ↔
      (k, r) ∈ records ∧ ¬ removalClaimCondition changes r) := by
  have hne : changes.isEmpty = false := by
    simpa [List.isEmpty_iff] using h
  constructor
  · intro k r
    simp only [ProcessedFileCache.remove_by_metadata_changes, hne, Bool.false_eq_true,
      if_neg, ite_false]
    rw [removalLoop_mem_removed, shouldRemove_eq_true_iff]
  · intro k r
    simp only [ProcessedFileCache.remove_by_metadata_changes, hne, Bool.false_eq_true,
      if_neg, ite_false]
    rw [removalLoop_mem_kept, shouldRemove_eq_true_iff]

/-- C5 witness: the theorem applied to a one-sport changes mapping and a
three-record cache (a legacy record, an implicated record, a surviving
record). -/
theorem remove_by_metadata_changes_exact_witness :
    (∀ k r, (k, r) ∈ (ProcessedFileCache.remove_by_metadata_changes
        [("f1", ⟨true, ["02"], [("03", ["e7"])], false⟩)]
        [("a.mkv", ⟨1, 2, none, none, none, none, none⟩),
         ("b.mkv", ⟨3, 4, none, none, some "f1", some "02", some "e1"⟩),
         ("c.mkv", ⟨5, 6, none, none, some "f1", some "01", some "e2"⟩)]).1 ↔
      (k, r) ∈ [("a.mkv", (⟨1, 2, none, none, none, none, none⟩ : CachedFileRecord)),
         ("b.mkv", ⟨3, 4, none, none, some "f1", some "02", some "e1"⟩),
         ("c.mkv", ⟨5, 6, none, none, some "f1", some "01", some "e2"⟩)] ∧
        removalClaimCondition [("f1", ⟨true, ["02"], [("03", ["e7"])], false⟩)] r) ∧
    (∀ k r, (k, r) ∈ (ProcessedFileCache.remove_by_metadata_changes
        [("f1", ⟨true, ["02"], [("03", ["e7"])], false⟩)]
        [("a.mkv", ⟨1, 2, none, none, none, none, none⟩),
         ("b.mkv", ⟨3, 4, none, none, some "f1", some "02", some "e1"⟩),
         ("c.mkv", ⟨5, 6, none, none, some "f1", some "01", some "e2"⟩)]).2.1 ↔
      (k, r) ∈ [("a.mkv", (⟨1, 2, none, none, none, none, none⟩ : CachedFileRecord)),
         ("b.mkv", ⟨3, 4, none, none, some "f1", some "02", some "e1"⟩),
         ("c.mkv", ⟨5, 6, none, none, some "f1", some "01", some "e2"⟩)] ∧
        ¬ removalClaimCondition [("f1", ⟨true, ["02"], [("03", ["e7"])], false⟩)] r) :=
  remove_by_metadata_changes_exact _ _ (by decide)

/-- An association-list lookup hit yields a member. -/
theorem mem_of_lookup_eq_some {β : Type} {l : List (String × β)} {s : String} {v : β}
    (h : l.lookup s = some v) : (s, v) ∈ l := by
  induction l with
  | nil => simp [List.lookup] at h
  | cons p rest ih =>
    obtain ⟨k, w⟩ := p
    rw [List.lookup_cons] at h
    by_cases hk : s = k
    · subst hk
      simp at h
      subst h
      exact List.mem_cons_self _ _
    · rw [show (s == k) = false from beq_eq_false_iff_ne.mpr hk] at h
      exact List.mem_cons_of_mem _ (ih h)

/-- With duplicate-free keys, a member is found by lookup. -/
theorem lookup_eq_some_of_mem_nodup {β : Type} {l : List (String × β)} {s : String} {v : β}
    (hnd : (l.map Prod.fst).Nodup) (hmem : (s, v) ∈ l) : l.lookup s = some v := by
  induction l with
  | nil => simp at hmem
  | cons p rest ih =>
    obtain ⟨k, w⟩ := p
    simp only [List.map_cons, List.nodup_cons] at hnd
    rcases List.mem_cons.mp hmem with heq | hmem'
    · rw [Prod.mk.injEq] at heq
      obtain ⟨rfl, rfl⟩ := heq
      rw [List.lookup_cons]
      simp
    · have hne : s ≠ k := by
        rintro rfl
        exact hnd.1 (List.mem_map.mpr ⟨(s, v), hmem', rfl⟩)
      rw [List.lookup_cons, show (s == k) = false from beq_eq_false_iff_ne.mpr hne]
      exact ih hnd.2 hmem'

/-- A key outside the key list is not found by lookup. -/
theorem lookup_eq_none_of_not_mem_keys {β : Type} {l : List (String × β)} {s : String}
    (h : s ∉ l.map Prod.fst) : l.lookup s = none := by
  cases hl : l.lookup s with
  | none => rfl
  | some v =>
    exact absurd (List.mem_map.mpr ⟨(s, v), mem_of_lookup_eq_some hl, rfl⟩) h

/-- Lookup distributes over append, preferring the left list. -/
theorem lookup_append {β : Type} (l₁ l₂ : List (String × β)) (s : String) :
    (l₁ ++ l₂).lookup s = ((l₁.lookup s).orElse fun _ => l₂.lookup s) := by
  induction l₁ with
  | nil => simp [List.lookup]
  | cons p rest ih =>
    obtain ⟨k, w⟩ := p
    by_cases hk : s = k
    · subst hk
      simp [List.lookup_cons]
    · rw [List.cons_append, List.lookup_cons, List.lookup_cons,
        show (s == k) = false from beq_eq_false_iff_ne.mpr hk]
      exact ih

/-- Membership in the stale-key list: an entry of `old` whose hash is missing
or different in `new`. -/
theorem mem_staleKeys_iff {old new : List (String × String)} {s : String} :
    s ∈ staleKeys old new ↔ ∃ v, (s, v) ∈ old ∧ ¬ new.lookup s = some v := by
  unfold staleKeys
  simp only [List.mem_map, List.mem_filter]
  constructor
  · rintro ⟨⟨a, b⟩, ⟨hmem, hne⟩, rfl⟩
    refine ⟨b, hmem, ?_⟩
    simpa using hne
  · rintro ⟨v, hmem, hne⟩
    refine ⟨(s, v), ⟨hmem, ?_⟩, rfl⟩
    simpa using hne

/-- Membership in the changed-season accumulator after the episode diff loop:
the starting accumulator, plus the stored episode seasons (not already
flagged) whose episode map has no counterpart in the new fingerprint. -/
theorem epDiffLoop_changed_seasons_mem
    (newEp : List (String × List (String × String)))
    (l : List (String × List (String × String))) (cs : List String)
    (ce : List (String × List String)) (s : String) :
    s ∈ (epDiffLoop newEp l cs ce).1 ↔
      s ∈ cs ∨ ((∃ m, (s, m) ∈ l) ∧ s ∉ cs ∧ newEp.lookup s = none) := by
  induction l generalizing cs ce with
  | nil => simp [epDiffLoop]
  | cons p rest ih =>
    obtain ⟨sk, prevMap⟩ := p
    by_cases hm : cs.contains sk = true
    · have hm' : sk ∈ cs := List.elem_iff.mp hm
      rw [epDiffLoop, if_pos hm, ih]
      by_cases hss : s = sk
      · subst hss
        simp [hm']
      · simp [List.mem_cons, Prod.mk.injEq, hss]
    · have hm' : sk ∉ cs := fun hmem => hm (List.elem_iff.mpr hmem)
      rcases hnew : newEp.lookup sk with _ | newMap
      · rw [epDiffLoop, if_neg hm, hnew, ih]
        by_cases hss : s = sk
        · subst hss
          simp [List.mem_append, hnew, hm']
        · simp [List.mem_append, List.mem_cons, Prod.mk.injEq, hss]
      · rw [epDiffLoop, if_neg hm]
        simp only [hnew]
        by_cases hch : (staleKeys prevMap newMap).isEmpty = true
        · rw [if_pos hch, ih]
          by_cases hss : s = sk
          · subst hss
            simp [hnew]
          · simp [List.mem_cons, Prod.mk.injEq, hss]
        · rw [if_neg hch, ih]
          by_cases hss : s = sk
          · subst hss
            simp [hnew]
          · simp [List.mem_cons, Prod.mk.injEq, hss]

/-- The changed-episode map after the episode diff loop, looked up at a
season key, equals its specification. -/
theorem epDiffLoop_changed_episodes_lookup
    (newEp : List (String × List (String × String)))
    (l : List (String × List (String × String))) (cs : List String)
    (ce : List (String × List String)) (s : String)
    (hnd : (l.map Prod.fst).Nodup) :
    ((epDiffLoop newEp l cs ce).2).lookup s = epDiffCeSpec newEp cs l ce s := by
  induction l generalizing cs ce with
  | nil =>
    rcases hce : ce.lookup s with _ | v <;> simp [epDiffLoop, epDiffCeSpec, hce, List.lookup]
  | cons p rest ih =>
    obtain ⟨sk, prevMap⟩ := p
    simp only [List.map_cons, List.nodup_cons] at hnd
    have hrestsk : rest.lookup sk = none :=
      lookup_eq_none_of_not_mem_keys hnd.1
    by_cases hm : cs.contains sk = true
    · have hm' : sk ∈ cs := List.elem_iff.mp hm
      rw [epDiffLoop, if_pos hm, ih _ _ hnd.2]
      unfold epDiffCeSpec
      rcases hce : ce.lookup s with _ | v
      · by_cases hss : s = sk
        · subst hss
          rw [List.lookup_cons]
          simp [hrestsk, hm']
        · rw [List.lookup_cons, show (s == sk) = false from beq_eq_false_iff_ne.mpr hss]
      · rfl
    · have hm' : sk ∉ cs := fun hmem => hm (List.elem_iff.mpr hmem)
      rcases hnew : newEp.lookup sk with _ | newMap
      · rw [epDiffLoop, if_neg hm]
        simp only [hnew]
        rw [ih _ _ hnd.2]
        unfold epDiffCeSpec
        rcases hce : ce.lookup s with _ | v
        · by_cases hss : s = sk
          · subst hss
            rw [List.lookup_cons]
            simp [hrestsk, hnew]
          · rw [List.lookup_cons, show (s == sk) = false from beq_eq_false_iff_ne.mpr hss]
            rcases hrl : rest.lookup s with _ | pm
            · rfl
            · have hcs : (s ∈ cs ++ [sk]) ↔ s ∈ cs := by simp [hss]
              by_cases hin : s ∈ cs
              · simp [hin, hcs.mpr hin]
              · simp only [if_neg (fun hc => hin (hcs.mp hc)), if_neg hin]
        · rfl
      · by_cases hch : (staleKeys prevMap newMap).isEmpty = true
        · rw [epDiffLoop, if_neg hm]
          simp only [hnew]
          rw [if_pos hch, ih _ _ hnd.2]
          unfold epDiffCeSpec
          rcases hce : ce.lookup s with _ | v
          · by_cases hss : s = sk
            · subst hss
              rw [List.lookup_cons]
              simp [hrestsk, hm', hnew, hch]
            · rw [List.lookup_cons, show (s == sk) = false from beq_eq_false_iff_ne.mpr hss]
          · rfl
        · rw [epDiffLoop, if_neg hm]
          simp only [hnew]
          rw [if_neg hch, ih _ _ hnd.2]
          unfold epDiffCeSpec
          have happ : ∀ t : String, (ce ++ [(sk, staleKeys prevMap newMap)]).lookup t =
              ((ce.lookup t).orElse fun _ =>
                ([(sk, staleKeys prevMap newMap)] : List (String × List String)).lookup t) :=
            fun t => lookup_append ce _ t
          rcases hce : ce.lookup s with _ | v
          · by_cases hss : s = sk
            · subst hss
              rw [happ, hce]
              rw [List.lookup_cons]
              simp [hrestsk, hm', hnew, hch]
            · rw [happ, hce]
              rw [List.lookup_cons, show (s == sk) = false from beq_eq_false_iff_ne.mpr hss]
              simp only [Option.orElse]
              rw [List.lookup_cons, show (s == sk) = false from beq_eq_false_iff_ne.mpr hss]
              rfl
          · rw [happ, hce]
            rfl

/-- Stale-key membership through lookups, for duplicate-free stored keys. -/
theorem mem_staleKeys_iff_lookup {old new : List (String × String)} {s : String}
    (hnd : (old.map Prod.fst).Nodup) :
    s ∈ staleKeys old new ↔ ∃ v, old.lookup s = some v ∧ ¬ new.lookup s = some v := by
  rw [mem_staleKeys_iff]
  constructor
  · rintro ⟨v, hmem, hne⟩
    exact ⟨v, lookup_eq_some_of_mem_nodup hnd hmem, hne⟩
  · rintro ⟨v, hl, hne⟩
    exact ⟨v, mem_of_lookup_eq_some hl, hne⟩

/-- C1: for stored and new fingerprints that both carry season- and
episode-level hashes and whose digests differ, `update` reports exactly the
materially changed entries: a season is in `changed_seasons` iff its stored
season hash is missing or different in the new map, or its stored episode map
has no counterpart in the new fingerprint; for a season not flagged changed,
`changed_episodes` holds exactly the stored episode keys whose hash is
missing or different in the new episode map; and on the spec's two-season
example differing only in season "02" episode "ep5" the result reports no
changed season and exactly `{"02": {"ep5"}}`. -/
theorem update_fine_grained_diff (e fp : ShowFingerprint)
    (hd : e.digest ≠ fp.digest)
    (hes : e.season_hashes ≠ []) (hee : e.episode_hashes ≠ [])
    (hfs : fp.season_hashes ≠ []) (hfe : fp.episode_hashes ≠ [])
    (hn1 : (e.season_hashes.map Prod.fst).Nodup)
    (hn2 : (e.episode_hashes.map Prod.fst).Nodup)
    (hn3 : ∀ p ∈ e.episode_hashes, (p.2.map Prod.fst).Nodup) :
    (MetadataFingerprintStore.update (some e) fp).1.updated = true ∧
    (MetadataFingerprintStore.update (some e) fp).1.invalidate_all = false ∧
    (∀ s, s ∈ (MetadataFingerprintStore.update (some e) fp).1.changed_seasons ↔
      ((∃ v, e.season_hashes.lookup s = some v ∧ ¬ fp.season_hashes.lookup s = some v) ∨
       ((∃ m, e.episode_hashes.lookup s = some m) ∧ fp.episode_hashes.lookup s = none))) ∧
    (∀ s prevMap, e.episode_hashes.lookup s = some prevMap →
      s ∉ (MetadataFingerprintStore.update (some e) fp).1.changed_seasons →
      ∀ ep, (∃ l, ((MetadataFingerprintStore.update (some e) fp).1.changed_episodes).lookup s
            = some l ∧ ep ∈ l) ↔
        (∃ v, prevMap.lookup ep = some v ∧
          ¬ (fp.episode_hashes.lookup s).bind (fun m => m.lookup ep) = some v)) ∧
    (MetadataFingerprintStore.update (some exampleStored) exampleNew).1.changed_seasons = [] ∧
    (MetadataFingerprintStore.update (some exampleStored) exampleNew).1.changed_episodes =
      [("02", ["ep5"])] := by
  have hee' : e.episode_hashes.isEmpty = false := by
    simpa [List.isEmpty_iff] using hee
  have hc : ((e.season_hashes.isEmpty && e.episode_hashes.isEmpty) ||
      (e.episode_hashes.isEmpty && (fp.episode_hashes.any fun p => !p.2.isEmpty))) = false := by
    simp [hee']
  have hres : MetadataFingerprintStore.update (some e) fp =
      (⟨true,
        (epDiffLoop fp.episode_hashes e.episode_hashes
          (staleKeys e.season_hashes fp.season_hashes) []).1,
        (epDiffLoop fp.episode_hashes e.episode_hashes
          (staleKeys e.season_hashes fp.season_hashes) []).2, false⟩, fp) := by
    simp [MetadataFingerprintStore.update, hd, hc]
  refine ⟨by rw [hres], by rw [hres], ?_, ?_, by decide, by decide⟩
  · intro s
    rw [hres]
    simp only
    rw [epDiffLoop_changed_seasons_mem]
    have hcs0 : s ∈ staleKeys e.season_hashes fp.season_hashes ↔
        (∃ v, e.season_hashes.lookup s = some v ∧ ¬ fp.season_hashes.lookup s = some v) :=
      mem_staleKeys_iff_lookup hn1
    have hm2 : (∃ m, (s, m) ∈ e.episode_hashes) ↔
        (∃ m, e.episode_hashes.lookup s = some m) := by
      constructor
      · rintro ⟨m, hm⟩
        exact ⟨m, lookup_eq_some_of_mem_nodup hn2 hm⟩
      · rintro ⟨m, hm⟩
        exact ⟨m, mem_of_lookup_eq_some hm⟩
    rw [hcs0, hm2]
    by_cases hA : ∃ v, e.season_hashes.lookup s = some v ∧
        ¬ fp.season_hashes.lookup s = some v <;>
      simp [hA]
  · intro s prevMap hlook hnots
    rw [hres] at hnots ⊢
    simp only at hnots ⊢
    rw [epDiffLoop_changed_seasons_mem] at hnots
    have hscs0 : s ∉ staleKeys e.season_hashes fp.season_hashes := fun hin => hnots (Or.inl hin)
    have hmem : (s, prevMap) ∈ e.episode_hashes := mem_of_lookup_eq_some hlook
    obtain ⟨newMap, hnew⟩ : ∃ nm, fp.episode_hashes.lookup s = some nm := by
      rcases h : fp.episode_hashes.lookup s with _ | nm
      · exact absurd (Or.inr ⟨⟨prevMap, hmem⟩, hscs0, h⟩) hnots
      · exact ⟨nm, rfl⟩
    intro ep
    rw [epDiffLoop_changed_episodes_lookup _ _ _ _ _ hn2]
    have hspec : epDiffCeSpec fp.episode_hashes
        (staleKeys e.season_hashes fp.season_hashes) e.episode_hashes [] s =
        (if (staleKeys prevMap newMap).isEmpty then none
         else some (staleKeys prevMap newMap)) := by
      unfold epDiffCeSpec
      simp [List.lookup, hlook, hnew, hscs0]
    rw [hspec]
    have hmemiff : ∀ ep' : String, ep' ∈ staleKeys prevMap newMap ↔
        ∃ v, prevMap.lookup ep' = some v ∧ ¬ newMap.lookup ep' = some v :=
      fun ep' => mem_staleKeys_iff_lookup (hn3 (s, prevMap) hmem)
    by_cases hch : (staleKeys prevMap newMap).isEmpty = true
    · rw [if_pos hch]
      have hempty : staleKeys prevMap newMap = [] := List.isEmpty_iff.mp hch
      simp only [hnew, Option.bind_some]
      constructor
      · rintro ⟨l, hl, _⟩
        exact absurd hl (by simp)
      · rintro ⟨v, hv, hnv⟩
        have := (hmemiff ep).mpr ⟨v, hv, hnv⟩
        rw [hempty] at this
        simp at this
    · rw [if_neg hch]
      simp only [hnew, Option.bind_some, Option.some.injEq]
      constructor
      · rintro ⟨l, hl, hepl⟩
        exact (hmemiff ep).mp (hl ▸ hepl)
      · intro hv
        exact ⟨staleKeys prevMap newMap, rfl, (hmemiff ep).mpr hv⟩

/-- C1 witness: the theorem applied to the spec's two-season example. -/
theorem update_fine_grained_diff_witness :
    (MetadataFingerprintStore.update (some exampleStored) exampleNew).1.updated = true ∧
    (MetadataFingerprintStore.update (some exampleStored) exampleNew).1.invalidate_all
      = false ∧
    (∀ s, s ∈ (MetadataFingerprintStore.update
          (some exampleStored) exampleNew).1.changed_seasons ↔
      ((∃ v, exampleStored.season_hashes.lookup s = some v ∧
          ¬ exampleNew.season_hashes.lookup s = some v) ∨
       ((∃ m, exampleStored.episode_hashes.lookup s = some m) ∧
          exampleNew.episode_hashes.lookup s = none))) ∧
    (∀ s prevMap, exampleStored.episode_hashes.lookup s = some prevMap →
      s ∉ (MetadataFingerprintStore.update
            (some exampleStored) exampleNew).1.changed_seasons →
      ∀ ep, (∃ l, ((MetadataFingerprintStore.update
            (some exampleStored) exampleNew).1.changed_episodes).lookup s
            = some l ∧ ep ∈ l) ↔
        (∃ v, prevMap.lookup ep = some v ∧
          ¬ (exampleNew.episode_hashes.lookup s).bind (fun m => m.lookup ep) = some v)) ∧
    (MetadataFingerprintStore.update (some exampleStored) exampleNew).1.changed_seasons
      = [] ∧
    (MetadataFingerprintStore.update (some exampleStored) exampleNew).1.changed_episodes
      = [("02", ["ep5"])] :=
  update_fine_grained_diff exampleStored exampleNew (by decide) (by decide) (by decide)
    (by decide) (by decide) (by decide) (by decide) (by decide)

/-- The stale-key list only names keys of the old map. -/
theorem staleKeys_subset_keys (old new : List (String × String)) :
    ∀ s ∈ staleKeys old new, s ∈ old.map Prod.fst := by
  intro s hs
  rw [mem_staleKeys_iff] at hs
  obtain ⟨v, hmem, _⟩ := hs
  exact List.mem_map.mpr ⟨(s, v), hmem, rfl⟩

/-- Every entry of the changed-episode accumulator after the episode diff
loop is either inherited from the starting accumulator or is the stale-key
set of a stored episode map against its new counterpart. -/
theorem epDiffLoop_changed_episodes_mem
    (newEp : List (String × List (String × String)))
    (l : List (String × List (String × String))) (cs : List String)
    (ce : List (String × List String)) (s : String) (lst : List String) :
    (s, lst) ∈ (epDiffLoop newEp l cs ce).2 →
      (s, lst) ∈ ce ∨
      ∃ m nm, (s, m) ∈ l ∧ newEp.lookup s = some nm ∧ lst = staleKeys m nm := by
  induction l generalizing cs ce with
  | nil =>
    intro h
    exact Or.inl (by simpa [epDiffLoop] using h)
  | cons p rest ih =>
    obtain ⟨sk, prevMap⟩ := p
    intro h
    by_cases hm : cs.contains sk = true
    · rw [epDiffLoop, if_pos hm] at h
      rcases ih _ _ h with hce | ⟨m, nm, hmem, hlook, hl⟩
      · exact Or.inl hce
      · exact Or.inr ⟨m, nm, List.mem_cons_of_mem _ hmem, hlook, hl⟩
    · rcases hnew : newEp.lookup sk with _ | newMap
      · rw [epDiffLoop, if_neg hm] at h
        simp only [hnew] at h
        rcases ih _ _ h with hce | ⟨m, nm, hmem, hlook, hl⟩
        · exact Or.inl hce
        · exact Or.inr ⟨m, nm, List.mem_cons_of_mem _ hmem, hlook, hl⟩
      · rw [epDiffLoop, if_neg hm] at h
        simp only [hnew] at h
        by_cases hch : (staleKeys prevMap newMap).isEmpty = true
        · rw [if_pos hch] at h
          rcases ih _ _ h with hce | ⟨m, nm, hmem, hlook, hl⟩
          · exact Or.inl hce
          · exact Or.inr ⟨m, nm, List.mem_cons_of_mem _ hmem, hlook, hl⟩
        · rw [if_neg hch] at h
          rcases ih _ _ h with hce | ⟨m, nm, hmem, hlook, hl⟩
          · rcases List.mem_append.mp hce with hce' | hsing
            · exact Or.inl hce'
            · have hpair : s = sk ∧ lst = staleKeys prevMap newMap := by
                simpa [Prod.mk.injEq] using hsing
              obtain ⟨rfl, rfl⟩ := hpair
              exact Or.inr ⟨prevMap, newMap, List.mem_cons_self _ _, hnew, rfl⟩
          · exact Or.inr ⟨m, nm, List.mem_cons_of_mem _ hmem, hlook, hl⟩

/-- C9 counterexample: a stored fingerprint (expressible in the persisted
JSON format) whose episode-hash map has the season key "orphan" absent from
its season-hash map; the fine-grained diff reports "orphan" as a changed
season although it is not a stored season-hash key. -/
theorem update_reported_names_counterexample :
    "orphan" ∈ (MetadataFingerprintStore.update
        (some orphanStored) orphanNew).1.changed_seasons ∧
    "orphan" ∉ orphanStored.season_hashes.map Prod.fst ∧
    (MetadataFingerprintStore.update (some orphanStored) orphanNew).1.invalidate_all
      = false ∧
    orphanStored.season_hashes ≠ [] ∧ orphanStored.episode_hashes ≠ [] ∧
    orphanStored.digest ≠ orphanNew.digest := by decide

/-- C9 (amended): in the fine-grained branch every reported name existed in
the prior fingerprint: each changed season is a stored season-hash key or a
stored episode-map season key; each changed-episodes entry names a stored
episode-map season and a subset of that season's stored episode keys — a
season or episode present only in the new fingerprint is never reported. -/
theorem update_reported_names_from_prior (e fp : ShowFingerprint)
    (hd : e.digest ≠ fp.digest) (hee : e.episode_hashes ≠ []) :
    (∀ s, s ∈ (MetadataFingerprintStore.update (some e) fp).1.changed_seasons →
      s ∈ e.season_hashes.map Prod.fst ∨ s ∈ e.episode_hashes.map Prod.fst) ∧
    (∀ s l, (s, l) ∈ (MetadataFingerprintStore.update (some e) fp).1.changed_episodes →
      ∃ m, (s, m) ∈ e.episode_hashes ∧ ∀ ep ∈ l, ep ∈ m.map Prod.fst) := by
  have hee' : e.episode_hashes.isEmpty = false := by
    simpa [List.isEmpty_iff] using hee
  have hc : ((e.season_hashes.isEmpty && e.episode_hashes.isEmpty) ||
      (e.episode_hashes.isEmpty && (fp.episode_hashes.any fun p => !p.2.isEmpty))) = false := by
    simp [hee']
  have hres : MetadataFingerprintStore.update (some e) fp =
      (⟨true,
        (epDiffLoop fp.episode_hashes e.episode_hashes
          (staleKeys e.season_hashes fp.season_hashes) []).1,
        (epDiffLoop fp.episode_hashes e.episode_hashes
          (staleKeys e.season_hashes fp.season_hashes) []).2, false⟩, fp) := by
    simp [MetadataFingerprintStore.update, hd, hc]
  constructor
  · intro s hs
    rw [hres] at hs
    simp only at hs
    rw [epDiffLoop_changed_seasons_mem] at hs
    rcases hs with hcs0 | ⟨⟨m, hmem⟩, _, _⟩
    · exact Or.inl (staleKeys_subset_keys _ _ s hcs0)
    · exact Or.inr (List.mem_map.mpr ⟨(s, m), hmem, rfl⟩)
  · intro s l hmem
    rw [hres] at hmem
    simp only at hmem
    rcases epDiffLoop_changed_episodes_mem _ _ _ _ _ _ hmem with hce | ⟨m, nm, hm, _, hl⟩
    · simp at hce
    · refine ⟨m, hm, fun ep hep => ?_⟩
      exact staleKeys_subset_keys _ _ ep (hl ▸ hep)

/-- C9 witness: the amended theorem applied to the orphan-season example. -/
theorem update_reported_names_witness :
    (∀ s, s ∈ (MetadataFingerprintStore.update
          (some orphanStored) orphanNew).1.changed_seasons →
      s ∈ orphanStored.season_hashes.map Prod.fst ∨
        s ∈ orphanStored.episode_hashes.map Prod.fst) ∧
    (∀ s l, (s, l) ∈ (MetadataFingerprintStore.update
          (some orphanStored) orphanNew).1.changed_episodes →
      ∃ m, (s, m) ∈ orphanStored.episode_hashes ∧ ∀ ep ∈ l, ep ∈ m.map Prod.fst) :=
  update_reported_names_from_prior orphanStored orphanNew (by decide) (by decide)

/-- A successful pattern attempt returns that pattern in the result. -/
theorem tryPattern_pattern_eq
    {regexSearch : PatternConfig → String → Option (List (String × String))}
    {selectSeason : Show → SeasonSelector → List (String × String) → Option Season}
    {selectEpisode : PatternConfig → Season → List (String × String) → Option Episode}
    {filename : String} {sh : Show} {p : PatternConfig} {r : EpisodeMatch}
    (h : tryPattern regexSearch selectSeason selectEpisode filename sh p = some r) :
    r.pattern = p := by
  unfold tryPattern at h
  rcases hg : regexSearch p filename with _ | groups <;> simp [hg] at h
  rcases hs : selectSeason sh p.season_selector groups with _ | season <;> simp [hs] at h
  rcases he : selectEpisode p season groups with _ | episode <;> simp [he] at h
  rw [← h]

/-- C2: the pattern loop returns the result of the first pattern, in list
order, whose regex matches and whose season and episode both resolve,
immediately and with that pattern recorded in the result; the pattern list a
sport hands to the matcher is sorted by ascending priority; and with two
fully-resolving patterns of priorities 10 and 50 the priority-10 pattern's
resolution is returned. -/
theorem match_priority_first_wins
    (regexSearch : PatternConfig → String → Option (List (String × String)))
    (selectSeason : Show → SeasonSelector → List (String × String) → Option Season)
    (selectEpisode : PatternConfig → Season → List (String × String) → Option Episode)
    (filename : String) (sh : Show) :
    (∀ ps₁ ps₂ p r,
      (∀ q ∈ ps₁,
        tryPattern regexSearch selectSeason selectEpisode filename sh q = none) →
      tryPattern regexSearch selectSeason selectEpisode filename sh p = some r →
      match_file_to_episode regexSearch selectSeason selectEpisode filename sh
        (ps₁ ++ p :: ps₂) = some r ∧ r.pattern = p) ∧
    (∀ l : List PatternConfig,
      List.Sorted (fun a b => a.priority ≤ b.priority) (sortPatternsByPriority l)) ∧
    (∀ p1 p2 r1 r2, p1.priority = 10 → p2.priority = 50 →
      tryPattern regexSearch selectSeason selectEpisode filename sh p1 = some r1 →
      tryPattern regexSearch selectSeason selectEpisode filename sh p2 = some r2 →
      match_file_to_episode regexSearch selectSeason selectEpisode filename sh
        (sortPatternsByPriority [p2, p1]) = some r1 ∧ r1.pattern = p1) := by
  refine ⟨?_, ?_, ?_⟩
  · intro ps₁ ps₂ p r hfail hsucc
    refine ⟨?_, tryPattern_pattern_eq hsucc⟩
    induction ps₁ with
    | nil =>
      simp only [List.nil_append, match_file_to_episode, hsucc]
    | cons q qs ih =>
      have hq : tryPattern regexSearch selectSeason selectEpisode filename sh q = none :=
        hfail q (List.mem_cons_self _ _)
      rw [List.cons_append, match_file_to_episode, hq]
      exact ih fun q' hq' => hfail q' (List.mem_cons_of_mem _ hq')
  · intro l
    haveI : IsTotal PatternConfig (fun a b => a.priority ≤ b.priority) :=
      ⟨fun a b => Int.le_total a.priority b.priority⟩
    haveI : IsTrans PatternConfig (fun a b => a.priority ≤ b.priority) :=
      ⟨fun _ _ _ hab hbc => le_trans hab hbc⟩
    unfold sortPatternsByPriority
    exact List.sorted_insertionSort _ l
  · intro p1 p2 r1 r2 h1 h2 hs1 hs2
    have hle : ¬ ((50 : Int) ≤ 10) := by norm_num
    have hsort : sortPatternsByPriority [p2, p1] = [p1, p2] := by
      unfold sortPatternsByPriority
      simp [List.insertionSort, List.orderedInsert, h1, h2, hle]
    rw [hsort, match_file_to_episode, hs1]
    exact ⟨rfl, tryPattern_pattern_eq hs1⟩

/-- C8: token expansion fails fast on every invalid token table or pattern:
a name reappearing on its own resolution stack raises a cycle error naming
the full reference chain; an unknown `<name>` reference raises an
unknown-token error naming the offending token and, inside a pattern body,
the full pattern text; neither case silently drops a pattern (the error
propagates through `Except`); and `(?P<name>...)` capture syntax is never
treated as a placeholder reference. -/
theorem token_expansion_fails_fast :
    (∀ (raw memo : List (String × String)) (stack : List String) (name pat : String)
        (fuel : Nat),
      memo.lookup name = none → raw.lookup name = some pat →
      stack.contains name = true →
      resolveName raw (fuel + 1) memo stack name = .error (.circular (stack ++ [name]))) ∧
    (∀ (raw memo : List (String × String)) (stack : List String) (name : String)
        (fuel : Nat),
      memo.lookup name = none → raw.lookup name = none →
      resolveName raw (fuel + 1) memo stack name = .error (.unknownToken name)) ∧
    resolveRegexTokens [("a", "<b>"), ("b", "<a>")] = .error (.circular ["a", "b", "a"]) ∧
    resolveRegexTokens [("a", "x<missing>y")] = .error (.unknownToken "missing") ∧
    expandPlaceholders "foo<missing>bar" [] =
      .error (.unknownInPattern "missing" "foo<missing>bar") ∧
    resolveRegexTokens [("a", "(?P<x>y)"), ("b", "<a>z")] =
      .ok [("a", "(?P<x>y)"), ("b", "(?P<x>y)z")] ∧
    expandPlaceholders "(?P<session>[A-Z]+)" [] = .ok "(?P<session>[A-Z]+)" := by
  refine ⟨?_, ?_, rfl, rfl, rfl, rfl, rfl⟩
  · intro raw memo stack name pat fuel hm hr hs
    simp only [resolveName, hm, hr]
    rw [if_pos hs]
  · intro raw memo stack name fuel hm hr
    simp [resolveName, hm, hr]

/-- C7 counterexample: with no fuzzy backend, the pair ("abcd", "abdc")
passes the length-≥-4, length-difference-≤-1 and shared-first-character
preconditions and is accepted by `_tokens_close` — through the
adjacent-transposition check, which runs before the backend branch — although
its generic sequence-similarity ratio is 3/4 < 0.9. -/
theorem tokens_close_fallback_counterexample :
    4 ≤ "abcd".length ∧ 4 ≤ "abdc".length ∧
    (("abcd".length : Int) - ("abdc".length : Int)).natAbs ≤ 1 ∧
    "abcd".toList.head? = "abdc".toList.head? ∧
    tokens_close_fallback "abcd" "abdc" = true ∧
    ¬ ((9 : Rat) / 10 ≤ token_similarity_fallback "abcd" "abdc") := by
  refine ⟨by decide, by decide, by decide, by decide, by decide, ?_⟩
  have h3 : seqMatchTotal ['a', 'b', 'c', 'd'] ['a', 'b', 'd', 'c'] = 3 := by decide
  have htl : "abcd".toList = ['a', 'b', 'c', 'd'] := rfl
  have htl' : "abdc".toList = ['a', 'b', 'd', 'c'] := rfl
  have hl1 : "abcd".length = 4 := rfl
  have hl2 : "abdc".length = 4 := rfl
  rw [token_similarity_fallback, htl, htl', h3]
  norm_num [hl1, hl2]

/-- C7 (amended): with no fuzzy backend, for every token pair passing the
length-≥-4, length-difference-≤-1 and shared-first-character preconditions,
`_tokens_close` accepts exactly when the adjacent-transposition check passes
or the generic sequence-similarity ratio is ≥ 0.9; only the
edit-distance-≤-1 check is skipped in that mode. -/
theorem tokens_close_fallback_characterisation (candidate target : String)
    (h1 : 4 ≤ candidate.length) (h2 : 4 ≤ target.length)
    (h3 : ((candidate.length : Int) - (target.length : Int)).natAbs ≤ 1)
    (h4 : candidate.toList.head? = target.toList.head?) :
    tokens_close_fallback candidate target = true ↔
      (transpositionAccept candidate target = true ∨
        (9 : Rat) / 10 ≤ token_similarity_fallback candidate target) := by
  unfold tokens_close_fallback
  have hn1 : (candidate.length < 4 || target.length < 4) = false := by
    simp only [Bool.or_eq_false_iff, decide_eq_false_iff_not, Nat.not_lt]
    omega
  rw [hn1]
  have hn2 : ¬ (1 < ((candidate.length : Int) - (target.length : Int)).natAbs) := by omega
  have h4' : candidate.data.head? = target.data.head? := h4
  have hn3 : (candidate.toList.head? != target.toList.head?) = false := by
    simp [h4']
  rw [if_neg hn2, hn3]
  by_cases ht : transpositionAccept candidate target = true
  · simp [ht]
  · simp [ht]

/-- C7 witness: the amended theorem applied to the transposed pair. -/
theorem tokens_close_fallback_witness :
    tokens_close_fallback "abcd" "abdc" = true ↔
      (transpositionAccept "abcd" "abdc" = true ∨
        (9 : Rat) / 10 ≤ token_similarity_fallback "abcd" "abdc") :=
  tokens_close_fallback_characterisation "abcd" "abdc" (by decide) (by decide)
    (by decide) (by decide)

/-- Positional lookup after a functional point update. -/
theorem modifyIdx_get? {α : Type} (f : α → α) :
    ∀ (i p : Nat) (l : List α),
      (modifyIdx f i l).get? p = if p = i then (l.get? p).map f else l.get? p
  | i, p, [] => by simp [modifyIdx]
  | 0, 0, a :: as => by simp [modifyIdx]
  | 0, p + 1, a :: as => by simp [modifyIdx]
  | i + 1, 0, a :: as => by simp [modifyIdx]
  | i + 1, p + 1, a :: as => by
    simp only [modifyIdx, List.get?_cons_succ, modifyIdx_get? f i p as]
    by_cases h : p = i
    · simp [h]
    · simp [h, fun hc => h (Nat.succ_injective hc)]

/-- Mapping a function that is blind to the updated component erases a point
update. -/
theorem map_modifyIdx_invariant {α β : Type} (h : α → β) (g : α → α) :
    ∀ (i : Nat) (l : List α), (∀ a, h (g a) = h a) →
      (modifyIdx g i l).map h = l.map h
  | i, [], _ => by cases i <;> rfl
  | 0, a :: as, hfix => by simp [modifyIdx, hfix]
  | i + 1, a :: as, hfix => by
    simp only [modifyIdx, List.map_cons, map_modifyIdx_invariant h g i as hfix]

/-- C6: `compute_show_fingerprint` is deterministic, and for two shows
differing only in one episode's summary (episode `j` of the season at
position `i`) the fingerprints agree everywhere except possibly that
episode's hash entry: the digests agree, every season-level hash (the owning
season's included) agrees, the season keys of the episode maps agree, every
other season's episode map agrees, and the owning season's episode map has
the same episode keys with every entry other than episode `j`'s unchanged. -/
theorem compute_show_fingerprint_locality (hashFn : String → String)
    (sh : Show) (cfg : MetadataConfig) (i j : Nat) (newSummary : Option String)
    (se : Season) (hse : sh.seasons.get? i = some se) (hj : j < se.episodes.length) :
    (∀ (sh₂ : Show) (cfg₂ : MetadataConfig), sh = sh₂ → cfg = cfg₂ →
      compute_show_fingerprint hashFn sh cfg = compute_show_fingerprint hashFn sh₂ cfg₂) ∧
    (compute_show_fingerprint hashFn (setEpisodeSummary sh i j newSummary) cfg).digest =
      (compute_show_fingerprint hashFn sh cfg).digest ∧
    (compute_show_fingerprint hashFn
        (setEpisodeSummary sh i j newSummary) cfg).season_hashes =
      (compute_show_fingerprint hashFn sh cfg).season_hashes ∧
    ((compute_show_fingerprint hashFn
        (setEpisodeSummary sh i j newSummary) cfg).episode_hashes.map Prod.fst) =
      ((compute_show_fingerprint hashFn sh cfg).episode_hashes.map Prod.fst) ∧
    (∀ p, p ≠ i →
      (compute_show_fingerprint hashFn
          (setEpisodeSummary sh i j newSummary) cfg).episode_hashes.get? p =
        (compute_show_fingerprint hashFn sh cfg).episode_hashes.get? p) ∧
    (∃ sk m m',
      (compute_show_fingerprint hashFn sh cfg).episode_hashes.get? i = some (sk, m) ∧
      (compute_show_fingerprint hashFn
          (setEpisodeSummary sh i j newSummary) cfg).episode_hashes.get? i
        = some (sk, m') ∧
      m'.map Prod.fst = m.map Prod.fst ∧
      (∀ q, q ≠ j → m'.get? q = m.get? q)) := by
  refine ⟨?_, rfl, ?_, ?_, ?_, ?_⟩
  · intro sh₂ cfg₂ h1 h2
    rw [h1, h2]
  · simp only [compute_show_fingerprint, setEpisodeSummary]
    exact map_modifyIdx_invariant _ _ i sh.seasons fun se' => rfl
  · simp only [compute_show_fingerprint, setEpisodeSummary]
    rw [List.map_map, List.map_map]
    exact map_modifyIdx_invariant _ _ i sh.seasons fun se' => rfl
  · intro p hp
    simp only [compute_show_fingerprint, setEpisodeSummary]
    rw [List.get?_map, List.get?_map, modifyIdx_get?, if_neg hp]
  · refine ⟨seasonIdentifier se,
      se.episodes.map fun ep => (episodeIdentifier ep, hashFn (encodeEpisodePayload ep)),
      (modifyIdx (fun ep => { ep with summary := newSummary }) j se.episodes).map
        fun ep => (episodeIdentifier ep, hashFn (encodeEpisodePayload ep)),
      ?_, ?_, ?_, ?_⟩
    · simp only [compute_show_fingerprint]
      rw [List.get?_map, hse]
      rfl
    · simp only [compute_show_fingerprint, setEpisodeSummary]
      rw [List.get?_map, modifyIdx_get?, if_pos rfl, hse]
      rfl
    · rw [List.map_map, List.map_map]
      exact map_modifyIdx_invariant _ _ j se.episodes fun ep => rfl
    · intro q hq
      rw [List.get?_map, List.get?_map, modifyIdx_get?, if_neg hq]

/-- C6 witness: the theorem applied to a one-season show with the identity
as the hash function, changing episode 0 of season 0. -/
theorem compute_show_fingerprint_locality_witness :
    (compute_show_fingerprint (fun s => s)
        (setEpisodeSummary showEx 0 0 (some "new summary")) cfgEx).season_hashes =
      (compute_show_fingerprint (fun s => s) showEx cfgEx).season_hashes ∧
    (compute_show_fingerprint (fun s => s)
        (setEpisodeSummary showEx 0 0 (some "new summary")) cfgEx).digest =
      (compute_show_fingerprint (fun s => s) showEx cfgEx).digest :=
  ⟨(compute_show_fingerprint_locality (fun s => s) showEx cfgEx 0 0 (some "new summary")
      seasonEx rfl (by decide)).2.2.1,
   (compute_show_fingerprint_locality (fun s => s) showEx cfgEx 0 0 (some "new summary")
      seasonEx rfl (by decide)).2.1⟩

end SportsOrganizer
